import Mathlib

/-!
Shallow embedding of the EliteFarmers/Tools farming-fortune library.

Sources embedded:
- src/util/ratecalc.ts (yield model: expected drops, detailed drops,
  cross-crop folding, inverse fortune calculation)
- src/constants/crops.ts (crop enumeration and static crop data)
- the FarmingTool class (fortune aggregator: sumFortune / rebuildTool)

JavaScript numbers are modelled as exact rationals; the one place where
division can produce Infinity or NaN (the inverse fortune calculation) is
modelled with an explicit JSNum type. Plain JS objects used as
string-keyed maps are modelled as association lists with last-write-wins
updates that keep insertion order, mirroring JS object semantics.

Static game-balance tables (tool, reforge, enchantment tables, perk-bonus
collaborators) are external to the embedded sources; they are passed as
explicit table parameters, and the parts of the crop table that the
embedded code consumes but that are absent from the sources are modelled
from the spec (marked in their doc comments).
-/

/-- A JS object used as a string-to-number map: association list in
insertion order, keys unique by construction. -/
abbrev RecordMap := List (String × ℚ)

/-- Reading a property of a JS object map: first (unique) matching key. -/
def getKey (r : RecordMap) (k : String) : Option ℚ :=
  match r with
  | [] => none
  | (k1, v) :: t => if k1 = k then some v else getKey t k

/-- Assigning a property of a JS object map: overwrite in place if the key
exists, otherwise append (JS objects keep first-insertion order). -/
def setKey (r : RecordMap) (k : String) (v : ℚ) : RecordMap :=
  match r with
  | [] => [(k, v)]
  | (k1, v1) :: t => if k1 = k then (k1, v) :: t else (k1, v1) :: setKey t k v

/-- The JS delete operator on an object map: remove the key. -/
def deleteKey (r : RecordMap) (k : String) : RecordMap :=
  r.filter (fun p => p.1 != k)

/-- Object.values(r).reduce((a, b) => a + b, 0). -/
def recSum (r : RecordMap) : ℚ :=
  (r.map Prod.snd).sum

/-- Math.round on an exact rational: JS rounds half toward positive
infinity, i.e. round(x) = floor(x + 1/2). -/
def jsRound (q : ℚ) : ℚ :=
  ((⌊q + 1/2⌋ : ℤ) : ℚ)

/-- A JS double restricted to the values reachable in the embedded code:
an exact rational, the two infinities, or NaN. -/
inductive JSNum where
  | nan : JSNum
  | posInf : JSNum
  | negInf : JSNum
  | fin : ℚ → JSNum
deriving DecidableEq

/-- JS division of two finite numbers: x / 0 is NaN when x = 0, otherwise
a signed infinity; finite otherwise. -/
def jsDiv (a b : ℚ) : JSNum :=
  if b = 0 then
    if a = 0 then JSNum.nan else if 0 < a then JSNum.posInf else JSNum.negInf
  else JSNum.fin (a / b)

/-- Subtracting a finite constant from a JS number: infinities and NaN are
absorbing. -/
def jsSubFin (x : JSNum) (c : ℚ) : JSNum :=
  match x with
  | JSNum.fin q => JSNum.fin (q - c)
  | other => other

/-- Math.ceil: identity on NaN and the infinities, integer ceiling on
finite values. -/
def jsCeil (x : JSNum) : JSNum :=
  match x with
  | JSNum.fin q => JSNum.fin ((⌈q⌉ : ℤ) : ℚ)
  | other => other

/-- Crop enumeration, from src/constants/crops.ts. -/
inductive Crop where
  | Cactus
  | Carrot
  | CocoaBeans
  | Melon
  | Mushroom
  | NetherWart
  | Potato
  | Pumpkin
  | SugarCane
  | Wheat
  | Seeds
deriving DecidableEq

/-- Per-crop static data. The name, npc and drops fields are from
src/constants/crops.ts. Modelled from the spec: the optional
breaks-per-block and replenish fields, which src/util/ratecalc.ts
destructures from this record but which are missing from the crops.ts in
the sources; per the spec the crop table carries an optional
breaks-per-block and a replenishment flag. -/
structure CropInfo where
  name : String
  npc : ℚ
  drops : ℚ
  breaks : Option ℚ
  replenish : Option Bool
deriving DecidableEq

/-- The CROP_INFO table from src/constants/crops.ts. Modelled from the
spec: the replenish flag is present (true) exactly for carrot, cocoa
beans, nether wart, potato and seeds, and no crop carries an explicit
breaks-per-block entry (the code defaults it to 1). -/
def CROP_INFO : Crop → CropInfo
  | Crop.Cactus => ⟨"Cactus", 3, 2, none, none⟩
  | Crop.Carrot => ⟨"Carrot", 3, 3, none, some true⟩
  | Crop.CocoaBeans => ⟨"Cocoa Beans", 3, 3, none, some true⟩
  | Crop.Melon => ⟨"Melon", 2, 5, none, none⟩
  | Crop.Mushroom => ⟨"Mushroom", 10, 1, none, none⟩
  | Crop.NetherWart => ⟨"Nether Wart", 4, 2.5, none, some true⟩
  | Crop.Potato => ⟨"Potato", 3, 3, none, some true⟩
  | Crop.Pumpkin => ⟨"Pumpkin", 10, 1, none, none⟩
  | Crop.SugarCane => ⟨"Sugar Cane", 2, 4, none, none⟩
  | Crop.Wheat => ⟨"Wheat", 6, 1, none, none⟩
  | Crop.Seeds => ⟨"Seeds", 3, 1.5, none, some true⟩

/-- GetCropInfo from src/util/ratecalc.ts: CROP_INFO[crop] ?? {}; the
fallback is unreachable because CROP_INFO is total over the enum. -/
def GetCropInfo (crop : Crop) : CropInfo :=
  CROP_INFO crop

/-- The single stat the embedded code reads from stat-bonus records. -/
inductive Stat where
  | FarmingFortune
deriving DecidableEq

/-- A sparse stat-bonus record (stats blocks of reforge tiers, tool
stats rows, enchantment level rows). -/
abbrev StatBlock := Stat → Option ℚ

/-- Item rarity tiers, from src/constants/reforges.ts (absent from the
sources). Modelled from the spec: an ordered tier enumeration; Mythic is
the default max-rarity fallback used by the yield model. -/
inductive Rarity where
  | Common
  | Uncommon
  | Rare
  | Epic
  | Legendary
  | Mythic
  | Divine
  | Special
deriving DecidableEq

/-- PreviousRarity from src/util/itemstats.ts (absent from the sources).
Modelled from the spec: the rarity one tier below the given one; clamped
at the bottom tier. -/
def PreviousRarity : Rarity → Rarity
  | Rarity.Common => Rarity.Common
  | Rarity.Uncommon => Rarity.Common
  | Rarity.Rare => Rarity.Uncommon
  | Rarity.Epic => Rarity.Rare
  | Rarity.Legendary => Rarity.Epic
  | Rarity.Mythic => Rarity.Legendary
  | Rarity.Divine => Rarity.Mythic
  | Rarity.Special => Rarity.Divine

/-- One tier row of a reforge: an optional stats block. -/
structure ReforgeTier where
  stats : Option StatBlock

/-- A reforge definition: display name and a sparse per-rarity tier
table. -/
structure Reforge where
  name : String
  tiers : Rarity → Option ReforgeTier

/-- Result record of CalculateAverageSpecialCrops, from src/crops/special
(absent from the sources): a named special-crop drop with a collection
amount and npc coin value. -/
structure SpecialCropInfo where
  type : String
  amount : ℚ
  npc : ℚ

/-- Static tables and external collaborators consumed by the yield model
in src/util/ratecalc.ts. Modelled from the spec: all of these definitions
live in files absent from the sources (crop max-fortune constants, best
farming tool table, reforge table, pumpkin and melon dicer-perk averages,
special-crop averages), so they are passed as opaque parameters. -/
structure RateTables where
  MAX_CROP_FORTUNE : Crop → Option ℚ
  BEST_FARMING_TOOLS_maxRarity : Crop → Option Rarity
  REFORGES : String → Option Reforge
  pumpkinPerkBonus : ℚ → ℚ
  melonPerkBonus : ℚ → ℚ
  specialCrops : ℚ → Crop → ℕ → SpecialCropInfo

/-- Options of CalculateExpectedDrops. -/
structure ExpectedDropsOptions where
  farmingFortune : Option ℚ
  blocksBroken : ℚ
  crop : Crop

/-- CalculateExpectedDrops from src/util/ratecalc.ts. -/
def CalculateExpectedDrops (T : RateTables) (o : ExpectedDropsOptions) : ℚ :=
  let fortune := o.farmingFortune.getD ((T.MAX_CROP_FORTUNE o.crop).getD 0)
  if fortune ≤ 0 ∨ o.blocksBroken < 0 then 0
  else
    let drops := (GetCropInfo o.crop).drops
    if drops = 0 then 0
    else
      let baseDrops := o.blocksBroken * drops * ((fortune + 100) * 0.01)
      match o.crop with
      | Crop.Cactus | Crop.Wheat | Crop.Mushroom | Crop.SugarCane =>
        jsRound baseDrops
      | Crop.Carrot | Crop.CocoaBeans | Crop.NetherWart | Crop.Potato | Crop.Seeds =>
        jsRound (baseDrops - o.blocksBroken)
      | Crop.Pumpkin =>
        jsRound (baseDrops + T.pumpkinPerkBonus o.blocksBroken)
      | Crop.Melon =>
        jsRound (baseDrops + T.melonPerkBonus o.blocksBroken)

/-- Options of CalculateDetailedDrops (crop plus the shared detailed
options). -/
structure DetailedDropsOptions where
  farmingFortune : Option ℚ
  blocksBroken : ℚ
  bountiful : Bool
  mooshroom : Bool
  crop : Crop

/-- The DetailedDrops result record of src/util/ratecalc.ts. -/
structure DetailedDrops where
  collection : ℚ
  npcCoins : ℚ
  fortune : ℚ
  coinSources : RecordMap
  otherCollection : RecordMap
deriving DecidableEq

/-- JS truthiness of an optional number: falsy when absent or zero. -/
def jsFalsyNumOpt (o : Option ℚ) : Bool :=
  match o with
  | none => true
  | some q => q == 0

/-- CalculateDetailedDrops from src/util/ratecalc.ts, lines 130 to 211.
The final npcCoins field is recomputed as the sum of the final
coinSources values, as in the source. -/
def CalculateDetailedDrops (T : RateTables) (o : DetailedDropsOptions) : DetailedDrops :=
  let fortune0 := o.farmingFortune.getD ((T.MAX_CROP_FORTUNE o.crop).getD 0)
  if fortune0 ≤ 0 ∨ o.blocksBroken < 0 then ⟨0, 0, 0, [], []⟩
  else
    let fortune :=
      if ¬ o.bountiful ∧ jsFalsyNumOpt o.farmingFortune then
        let maxRarity := (T.BEST_FARMING_TOOLS_maxRarity o.crop).getD Rarity.Mythic
        let bountifulFortune :=
          (((T.REFORGES "bountiful").bind (fun r => r.tiers maxRarity)).bind
            (fun t => t.stats.bind (fun s => s Stat.FarmingFortune))).getD 0
        let blessedFortune :=
          (((T.REFORGES "blessed").bind (fun r => r.tiers maxRarity)).bind
            (fun t => t.stats.bind (fun s => s Stat.FarmingFortune))).getD 0
        fortune0 + (blessedFortune - bountifulFortune)
      else fortune0
    let info := GetCropInfo o.crop
    if info.drops = 0 then ⟨0, 0, fortune, [], []⟩
    else
      let breaks := info.breaks.getD 1
      let replenish := info.replenish.getD false
      let baseDrops := o.blocksBroken * info.drops * ((fortune + 100) * 0.01)
      let oc1 : RecordMap := setKey [] "Normal" (jsRound baseDrops)
      let cs1 : RecordMap :=
        if o.bountiful then setKey [] "Bountiful" (jsRound (baseDrops * 0.2)) else []
      let mushroomDrops := jsRound (o.blocksBroken * breaks)
      let cs2 :=
        if o.mooshroom then
          setKey cs1 "Mooshroom" (mushroomDrops * (CROP_INFO Crop.Mushroom).npc)
        else cs1
      let oc2 := if o.mooshroom then setKey oc1 "Mushroom" mushroomDrops else oc1
      let armorPieces : ℕ := if o.crop = Crop.Cactus then 3 else 4
      let sc := T.specialCrops o.blocksBroken o.crop armorPieces
      let oc3 := setKey oc2 sc.type (jsRound sc.amount)
      let cs3 := setKey cs2 sc.type (jsRound sc.npc)
      let final : RecordMap × RecordMap × ℚ :=
        match o.crop with
        | Crop.Pumpkin =>
          let extraDrops := jsRound (T.pumpkinPerkBonus o.blocksBroken)
          (setKey (setKey cs3 "Dicer RNG" (jsRound (extraDrops * info.npc)))
            "Collection" (jsRound (baseDrops * info.npc)),
           setKey oc3 "RNG Pumpkin" (jsRound extraDrops),
           jsRound (baseDrops + extraDrops))
        | Crop.Melon =>
          let extraDrops := jsRound (T.melonPerkBonus o.blocksBroken)
          (setKey (setKey cs3 "Dicer RNG" (jsRound (extraDrops * info.npc)))
            "Collection" (jsRound (baseDrops * info.npc)),
           setKey oc3 "RNG Melon" (jsRound extraDrops),
           jsRound (baseDrops + extraDrops))
        | _ =>
          if replenish then
            (setKey cs3 "Collection"
              (jsRound ((baseDrops - o.blocksBroken * breaks) * info.npc)),
             setKey oc3 "Replenish" (-(jsRound (o.blocksBroken * breaks))),
             jsRound baseDrops)
          else
            (setKey cs3 "Collection" (jsRound (baseDrops * info.npc)),
             oc3,
             jsRound baseDrops)
      { collection := final.2.2
        npcCoins := recSum final.1
        fortune := fortune
        coinSources := final.1
        otherCollection := final.2.1 }

/-- Options of CalculateDetailedAverageDrops (no crop field). -/
structure DetailedAverageOptions where
  farmingFortune : Option ℚ
  blocksBroken : ℚ
  bountiful : Bool
  mooshroom : Bool

/-- Spreading the shared options with a concrete crop, as in the
per-crop loop of CalculateDetailedAverageDrops. -/
def withCrop (o : DetailedAverageOptions) (c : Crop) : DetailedDropsOptions :=
  ⟨o.farmingFortune, o.blocksBroken, o.bountiful, o.mooshroom, c⟩

/-- The per-crop loop of CalculateDetailedAverageDrops followed by the
seed-folding step (src/util/ratecalc.ts lines 53 to 73): the wheat entry
gains Seeds collection and coin entries derived from the seeds crop
result, plus a Bountiful (Seeds) coin entry when bountiful, and its
npcCoins is recomputed from the extended coinSources. -/
def detailedAverageBase (T : RateTables) (o : DetailedAverageOptions) : Crop → DetailedDrops :=
  let result : Crop → DetailedDrops := fun c => CalculateDetailedDrops T (withCrop o c)
  let wheat := result Crop.Wheat
  let seeds := result Crop.Seeds
  let seedCollection := seeds.collection - o.blocksBroken
  let cs1 := setKey wheat.coinSources "Seeds" (seedCollection * (CROP_INFO Crop.Seeds).npc)
  let cs2 :=
    if o.bountiful then
      setKey cs1 "Bountiful (Seeds)" ((getKey seeds.coinSources "Bountiful").getD 0)
    else cs1
  let wheat2 : DetailedDrops :=
    { wheat with
        otherCollection := setKey wheat.otherCollection "Seeds" seedCollection
        coinSources := cs2
        npcCoins := recSum cs2 }
  fun c => if c = Crop.Wheat then wheat2 else result c

/-- The mooshroom-folding step of CalculateDetailedAverageDrops
(src/util/ratecalc.ts lines 75 to 83): the Mushroom otherCollection entry
of the mushroom crop is added to its collection and renamed to
Mooshroom. -/
def mooshroomFold (m : Crop → DetailedDrops) : Crop → DetailedDrops :=
  let mushroom := m Crop.Mushroom
  let moo := (getKey mushroom.otherCollection "Mushroom").getD 0
  let mushroom2 : DetailedDrops :=
    { mushroom with
        collection := mushroom.collection + moo
        otherCollection := deleteKey (setKey mushroom.otherCollection "Mooshroom" moo) "Mushroom" }
  fun c => if c = Crop.Mushroom then mushroom2 else m c

/-- CalculateDetailedAverageDrops from src/util/ratecalc.ts: per-crop
detailed drops, then seed folding, then (when the mooshroom flag is set)
mooshroom folding. -/
def CalculateDetailedAverageDrops (T : RateTables) (o : DetailedAverageOptions) : Crop → DetailedDrops :=
  if o.mooshroom then mooshroomFold (detailedAverageBase T o)
  else detailedAverageBase T o

/-- Options of GetFortuneRequiredForCollection; the two optional flags
are modelled with their JS-truthiness defaults. -/
structure FortuneRequiredCalculatorOptions where
  blocksBroken : ℚ
  crop : Crop
  collection : ℚ
  useDicers : Bool
  useMooshroom : Bool

/-- GetFortuneRequiredForCollection from src/util/ratecalc.ts, lines 221
to 243. The division is the JS division of finite doubles, so a zero
denominator produces an infinity or NaN which Math.ceil passes through
unchanged; the source has no special case for it. -/
def GetFortuneRequiredForCollection (T : RateTables) (o : FortuneRequiredCalculatorOptions) : JSNum :=
  let collection1 :=
    if o.useDicers then
      match o.crop with
      | Crop.Pumpkin => o.collection - T.pumpkinPerkBonus o.blocksBroken
      | Crop.Melon => o.collection - T.melonPerkBonus o.blocksBroken
      | _ => o.collection
    else o.collection
  let collection2 :=
    if o.useMooshroom ∧ o.crop = Crop.Mushroom then collection1 - o.blocksBroken
    else collection1
  let drops := (GetCropInfo o.crop).drops
  jsCeil (jsSubFin (jsDiv (collection2 * 100) (drops * o.blocksBroken)) 100)

/-- GetNPCProfit from src/util/ratecalc.ts. -/
def GetNPCProfit (crop : Crop) (amount : ℚ) : ℚ :=
  let npc := (GetCropInfo crop).npc
  if npc = 0 then 0 else npc * amount

/-- Tool categories; only the mathematical-hoe category triggers the
ability-text parsing branch. -/
inductive FarmingToolType where
  | MathematicalHoe
  | Dicer
  | Other
deriving DecidableEq

/-- A farming tool definition from src/constants/tools.ts (absent from
the sources). Modelled from the spec: crop association, tool category,
base stat bonuses and a sparse per-rarity stats table. -/
structure FarmingToolInfo where
  crop : Crop
  toolType : FarmingToolType
  baseStats : Option StatBlock
  stats : Option (Rarity → Option StatBlock)

/-- A farming enchantment definition from src/constants/enchants.ts
(absent from the sources). Modelled from the spec: display name, sparse
per-level stat rows, and optional milestone-multiplied per-level rows. -/
structure FarmingEnchant where
  name : String
  levels : Option (Int → Option StatBlock)
  multipliedLevels : Option (Int → Option StatBlock)

/-- Player context: a sparse per-crop milestone-count lookup. -/
structure PlayerOptions where
  milestones : Option (Crop → Option ℚ)

/-- The free-form attribute map of an item, restricted to the keys the
FarmingTool class reads. -/
structure ItemAttributes where
  modifier : Option String
  mined_crops : Option String
  farmed_cultivating : Option String
  farming_for_dummies_count : Option String
  rarity_upgrades : Option String

/-- An item snapshot: identifier, display name, lore lines, enchantment
levels in insertion order, and attributes. -/
structure Item where
  skyblockId : String
  name : String
  lore : Option (List String)
  enchantments : Option (List (String × Int))
  attributes : Option ItemAttributes

/-- Static tables and external collaborators consumed by the FarmingTool
class. Modelled from the spec: the tool, reforge and enchantment tables,
the turbo-enchant crop mapping with its fixed per-level fortune constant,
the rarity-from-lore parser and the ability-line number extractor all
live in files absent from the sources, so they are passed as opaque
parameters. -/
structure Tables where
  FARMING_TOOLS : String → Option FarmingToolInfo
  REFORGES : String → Option Reforge
  FARMING_ENCHANTS : String → Option FarmingEnchant
  TURBO_ENCHANTS : String → Option Crop
  TURBO_ENCHANT_FORTUNE : ℚ
  rarityFromLore : List String → Rarity
  extractNumber : String → Option ℚ

/-- The derived per-tool fields that sumFortune reads, as set up by
rebuildTool before the fortune computation. -/
structure ToolCtx where
  tool : FarmingToolInfo
  crop : Crop
  rarity : Option Rarity
  reforge : Option Reforge
  reforgeStats : Option ReforgeTier
  farmingForDummies : ℚ
  recombobulated : Bool
  lore : Option (List String)
  enchantments : List (String × Int)

/-- The tool-rarity stats lookup of sumFortune: the effective rarity is
one tier below the stated rarity when the item is recombobulated, and
the tool stats row at that rarity supplies the Tool Stats fortune
(0 when any link is missing). -/
def rarityStatsValue (tool : FarmingToolInfo) (recomb : Bool) (rarity : Option Rarity) : ℚ :=
  let baseRarity := if recomb then rarity.map PreviousRarity else rarity
  ((tool.stats.bind (fun s => baseRarity.bind (fun r => s r))).bind
    (fun blk => blk Stat.FarmingFortune)).getD 0

/-- The lore scan of getFarmingAbilityFortune: sum the extracted numbers
over all lore lines, treating lines with no match as 0. -/
def abilityFortune (T : Tables) (lore : Option (List String)) : ℚ :=
  ((lore.getD []).map (fun line => (T.extractNumber line).getD 0)).sum

/-- The enchantment loop of sumFortune, as the ordered list of
(label, value) breakdown writes it performs: a level-0 entry is skipped;
a turbo enchantment contributes the fixed per-level constant times its
level under the label Turbo only when its crop matches the tool crop; any
other recognized enchantment contributes its per-level fortune under its
display name when positive. -/
def enchantContrib (T : Tables) (crop : Crop) (p : String × Int) : List (String × ℚ) :=
  if p.2 = 0 then []
  else
    match T.TURBO_ENCHANTS p.1 with
    | some matchingCrop =>
      if matchingCrop = crop then
        [("Turbo", T.TURBO_ENCHANT_FORTUNE * (p.2 : ℚ))]
      else []
    | none =>
      match T.FARMING_ENCHANTS p.1 with
      | none => []
      | some fe =>
        let fortune :=
          ((fe.levels.bind (fun lv => lv p.2)).bind
            (fun blk => blk Stat.FarmingFortune)).getD 0
        if 0 < fortune then [(fe.name, fortune)] else []

/-- The full enchantment loop: the per-entry writes concatenated in
iteration order. -/
def enchantContribs (T : Tables) (crop : Crop) (ench : List (String × Int)) : List (String × ℚ) :=
  ench.flatMap (enchantContrib T crop)

/-- The milestone-scaled dedication step of sumFortune, as the list of
breakdown writes it performs: with a nonzero milestone count for the tool
crop, a dedication enchantment at a nonzero level, and a positive
multiplier defined at that level, it writes multiplier times milestone
under the enchantment display name. (The NaN guard of the source cannot
fire in the rational model.) -/
def dedicationContribs (T : Tables) (opts : Option PlayerOptions) (crop : Crop)
    (ench : List (String × Int)) : List (String × ℚ) :=
  let milestone := ((opts.bind PlayerOptions.milestones).bind (fun m => m crop)).getD 0
  if milestone = 0 then []
  else
    match List.lookup "dedication" ench, T.FARMING_ENCHANTS "dedication" with
    | some level, some fe =>
      if level = 0 then []
      else
        let multiplier :=
          ((fe.multipliedLevels.bind (fun m => m level)).bind
            (fun blk => blk Stat.FarmingFortune)).getD 0
        if 0 < multiplier then [(fe.name, multiplier * milestone)] else []
    | _, _ => []

/-- Steps 1 to 5 of sumFortune as the ordered list of (label, value)
breakdown writes they perform: base tool bonus, rarity stats, reforge
stats, farming for dummies, tool ability (mathematical hoes only). -/
def fortunePrefix (T : Tables) (c : ToolCtx) : List (String × ℚ) :=
  (let base := (c.tool.baseStats.bind (fun blk => blk Stat.FarmingFortune)).getD 0
   if 0 < base then [("Tool Bonus", base)] else [])
  ++ (let rs := rarityStatsValue c.tool c.recombobulated c.rarity
      if 0 < rs then [("Tool Stats", rs)] else [])
  ++ (let rf := ((c.reforgeStats.bind ReforgeTier.stats).bind
        (fun blk => blk Stat.FarmingFortune)).getD 0
      if 0 < rf then [((c.reforge.map Reforge.name).getD "Reforge", rf)] else [])
  ++ (if 0 < c.farmingForDummies then [("Farming for Dummies", c.farmingForDummies)] else [])
  ++ (if c.tool.toolType = FarmingToolType.MathematicalHoe then
        let a := abilityFortune T c.lore
        if 0 < a then [("Tool Ability", a)] else []
      else [])

/-- The whole of sumFortune as the ordered list of (label, value)
breakdown writes it performs. Every source statement of the form
breakdown[label] = value; sum += value appears as one element, in source
evaluation order: base tool bonus, rarity stats, reforge stats, farming
for dummies, tool ability (mathematical hoes only), enchantments,
milestone-scaled dedication. -/
def fortuneContribs (T : Tables) (opts : Option PlayerOptions) (c : ToolCtx) : List (String × ℚ) :=
  fortunePrefix T c
  ++ enchantContribs T c.crop c.enchantments
  ++ dedicationContribs T opts c.crop c.enchantments

/-- Replaying a list of breakdown writes against an initially empty JS
object map. -/
def applyContribs (l : List (String × ℚ)) : RecordMap :=
  l.foldl (fun r p => setKey r p.1 p.2) []

/-- FarmingTool.sumFortune: the fortune total (the running sum of every
contribution) together with the fortune breakdown object (the same
writes replayed against a map, so a later write to an existing label
overwrites the earlier entry). -/
def sumFortune (T : Tables) (opts : Option PlayerOptions) (c : ToolCtx) : ℚ × RecordMap :=
  let l := fortuneContribs T opts c
  ((l.map Prod.snd).sum, applyContribs l)

/-- The rebuilt FarmingTool state. -/
structure FarmingTool where
  item : Item
  crop : Crop
  tool : FarmingToolInfo
  rarity : Option Rarity
  counter : Option ℚ
  cultivating : ℚ
  reforge : Option Reforge
  reforgeStats : Option ReforgeTier
  farmingForDummies : ℚ
  recombobulated : Bool
  fortune : ℚ
  fortuneBreakdown : RecordMap

/-- The error message thrown by rebuildTool for an unknown tool
identifier. -/
def unknownToolMessage (item : Item) : String :=
  "Unknown farming tool: " ++ item.name ++ " (" ++ item.skyblockId ++ ")"

/-- Coercing an optional attribute string with +(s ?? 0). The string to
number coercion of JS is passed in as an opaque parameter jsCoerce (a
string that parses as NaN behaves in the consuming guards exactly like a
coercion result of 0, so the rational model loses nothing). -/
def coerceAttr (jsCoerce : String → ℚ) (a : Option String) : ℚ :=
  match a with
  | none => 0
  | some s => jsCoerce s

/-- getCounter: the coerced mined_crops attribute when nonzero
(JS truthiness), else undefined. -/
def getCounter (jsCoerce : String → ℚ) (item : Item) : Option ℚ :=
  let counter := coerceAttr jsCoerce (item.attributes.bind ItemAttributes.mined_crops)
  if counter = 0 then none else some counter

/-- getCultivating: the coerced farmed_cultivating attribute when
nonzero, else undefined. -/
def getCultivating (jsCoerce : String → ℚ) (item : Item) : Option ℚ :=
  let cultivating := coerceAttr jsCoerce (item.attributes.bind ItemAttributes.farmed_cultivating)
  if cultivating = 0 then none else some cultivating

/-- The FarmingTool constructor / rebuildTool: fails with the unknown
tool error when the identifier is not in the tool table; otherwise
derives the per-tool fields (rarity from lore when lore is present,
reforge from the modifier attribute, reforge tier at the stated rarity,
farming-for-dummies count, recombobulated flag) and computes the fortune
total and breakdown with sumFortune. -/
def buildTool (T : Tables) (jsCoerce : String → ℚ) (item : Item)
    (opts : Option PlayerOptions) : Except String FarmingTool :=
  match T.FARMING_TOOLS item.skyblockId with
  | none => Except.error (unknownToolMessage item)
  | some tool =>
    let rarity := item.lore.map T.rarityFromLore
    let reforge := T.REFORGES ((item.attributes.bind ItemAttributes.modifier).getD "")
    let reforgeStats := reforge.bind (fun r => rarity.bind (fun ra => r.tiers ra))
    let ffd := coerceAttr jsCoerce (item.attributes.bind ItemAttributes.farming_for_dummies_count)
    let recomb := (item.attributes.bind ItemAttributes.rarity_upgrades) == some "1"
    let ctx : ToolCtx :=
      ⟨tool, tool.crop, rarity, reforge, reforgeStats, ffd, recomb,
        item.lore, item.enchantments.getD []⟩
    let fb := sumFortune T opts ctx
    Except.ok
      { item := item
        crop := tool.crop
        tool := tool
        rarity := rarity
        counter := getCounter jsCoerce item
        cultivating := (getCultivating jsCoerce item).getD 0
        reforge := reforge
        reforgeStats := reforgeStats
        farmingForDummies := ffd
        recombobulated := recomb
        fortune := fb.1
        fortuneBreakdown := fb.2 }

/-- Left-biased choice on optional values. -/
def orOpt (a b : Option ℚ) : Option ℚ :=
  match a with
  | some v => some v
  | none => b

/-- The value of the last write of a key in a list of writes, if any. -/
def lastWrite (l : List (String × ℚ)) (k : String) : Option ℚ :=
  match l with
  | [] => none
  | (k1, v) :: t => orOpt (lastWrite t k) (if k1 = k then some v else none)

theorem orOpt_none_right (a : Option ℚ) : orOpt a none = a := by
  cases a <;> rfl

theorem getKey_setKey_self (r : RecordMap) (k : String) (v : ℚ) :
    getKey (setKey r k v) k = some v := by
  induction r with
  | nil => simp [setKey, getKey]
  | cons p t ih =>
    by_cases h : p.1 = k
    · simp [setKey, getKey, h]
    · simp [setKey, getKey, h, ih]

theorem getKey_setKey_ne (r : RecordMap) (k k' : String) (v : ℚ) (h : k ≠ k') :
    getKey (setKey r k v) k' = getKey r k' := by
  induction r with
  | nil => simp [setKey, getKey, h]
  | cons p t ih =>
    by_cases h1 : p.1 = k
    · simp [setKey, getKey, h1, h]
    · simp [setKey, getKey, h1, ih]

theorem getKey_deleteKey_self (r : RecordMap) (k : String) :
    getKey (deleteKey r k) k = none := by
  induction r with
  | nil => rfl
  | cons p t ih =>
    by_cases h : p.1 = k
    · simpa [deleteKey, h] using ih
    · simpa [deleteKey, getKey, h] using ih

theorem getKey_deleteKey_ne (r : RecordMap) (k k' : String) (h : k' ≠ k) :
    getKey (deleteKey r k) k' = getKey r k' := by
  induction r with
  | nil => rfl
  | cons p t ih =>
    by_cases h1 : p.1 = k
    · have h2 : ¬ p.1 = k' := by
        rw [h1]
        exact fun hx => h hx.symm
      simp only [deleteKey] at ih
      simp [deleteKey, List.filter_cons, bne_iff_ne, h1, getKey, h2, ih, Ne.symm h]
    · by_cases h2 : p.1 = k'
      · simp [deleteKey, List.filter_cons, bne_iff_ne, h1, getKey, h2, h]
      · simp only [deleteKey] at ih
        simp [deleteKey, List.filter_cons, bne_iff_ne, h1, getKey, h2, ih]

theorem orOpt_assoc (a b c : Option ℚ) : orOpt (orOpt a b) c = orOpt a (orOpt b c) := by
  cases a <;> cases b <;> rfl

theorem lastWrite_append (a b : List (String × ℚ)) (k : String) :
    lastWrite (a ++ b) k = orOpt (lastWrite b k) (lastWrite a k) := by
  induction a with
  | nil => simp [lastWrite, orOpt_none_right]
  | cons p t ih =>
    simp only [List.cons_append, lastWrite, List.append_eq, ih, orOpt_assoc]

theorem lastWrite_of_forall_ne (l : List (String × ℚ)) (k : String)
    (h : ∀ p ∈ l, p.1 ≠ k) : lastWrite l k = none := by
  induction l with
  | nil => rfl
  | cons p t ih =>
    have hp : p.1 ≠ k := h p (by simp)
    have ht : lastWrite t k = none := ih (fun q hq => h q (by simp [hq]))
    simp [lastWrite, ht, hp, orOpt]

theorem getKey_foldl_setKey (l : List (String × ℚ)) (r : RecordMap) (k : String) :
    getKey (l.foldl (fun acc p => setKey acc p.1 p.2) r) k =
      orOpt (lastWrite l k) (getKey r k) := by
  induction l generalizing r with
  | nil => simp [lastWrite, orOpt]
  | cons p t ih =>
    simp only [List.foldl_cons, lastWrite, ih]
    cases h : lastWrite t k with
    | some v => simp [orOpt]
    | none =>
      by_cases hk : p.1 = k
      · subst hk
        simp [orOpt, getKey_setKey_self]
      · simp [orOpt, hk, getKey_setKey_ne _ _ _ _ hk]

theorem getKey_applyContribs (l : List (String × ℚ)) (k : String) :
    getKey (applyContribs l) k = lastWrite l k := by
  simpa [applyContribs, getKey, orOpt_none_right] using getKey_foldl_setKey l [] k

theorem getKey_append (a b : RecordMap) (k : String) :
    getKey (a ++ b) k = orOpt (getKey a k) (getKey b k) := by
  induction a with
  | nil => simp [getKey, orOpt]
  | cons p t ih =>
    by_cases h : p.1 = k <;> simp [getKey, h, ih, orOpt]

theorem setKey_of_getKey_none (r : RecordMap) (k : String) (v : ℚ)
    (h : getKey r k = none) : setKey r k v = r ++ [(k, v)] := by
  induction r with
  | nil => rfl
  | cons p t ih =>
    by_cases h1 : p.1 = k
    · simp [getKey, h1] at h
    · simp [getKey, h1] at h
      simp [setKey, h1, ih h]

theorem foldl_setKey_of_fresh (l : List (String × ℚ)) (r : RecordMap)
    (hfresh : ∀ p ∈ l, getKey r p.1 = none)
    (hnodup : (l.map Prod.fst).Nodup) :
    l.foldl (fun acc p => setKey acc p.1 p.2) r = r ++ l := by
  induction l generalizing r with
  | nil => simp
  | cons p t ih =>
    have hp : getKey r p.1 = none := hfresh p (by simp)
    have hstep : setKey r p.1 p.2 = r ++ [(p.1, p.2)] := setKey_of_getKey_none r p.1 p.2 hp
    have hnd : (t.map Prod.fst).Nodup := (List.nodup_cons.mp hnodup).2
    have hhead : p.1 ∉ t.map Prod.fst := (List.nodup_cons.mp hnodup).1
    have hfresh2 : ∀ q ∈ t, getKey (r ++ [(p.1, p.2)]) q.1 = none := by
      intro q hq
      have hq1 : getKey r q.1 = none := hfresh q (by simp [hq])
      have hq2 : q.1 ≠ p.1 := by
        intro hx
        exact hhead (hx ▸ List.mem_map_of_mem Prod.fst hq)
      have hq3 : getKey [(p.1, p.2)] q.1 = none := by
        have hne : ¬ p.1 = q.1 := fun hx => hq2 hx.symm
        simp [getKey, hne]
      simp [getKey_append, hq1, hq3, orOpt]
    have := ih (r ++ [(p.1, p.2)]) hfresh2 hnd
    simp only [List.foldl_cons, hstep, this, List.append_assoc, List.singleton_append]

theorem applyContribs_of_nodup (l : List (String × ℚ))
    (hnodup : (l.map Prod.fst).Nodup) : applyContribs l = l := by
  have := foldl_setKey_of_fresh l [] (fun p _ => rfl) hnodup
  simpa [applyContribs] using this

/-- A concrete instantiation of the yield-model tables, used to witness
theorems at explicit inputs. -/
def sampleRateTables : RateTables :=
  ⟨fun _ => none, fun _ => none, fun _ => none, fun _ => 0, fun _ => 0,
    fun _ _ _ => ⟨"Special Crop", 0, 0⟩⟩

/-- Claim C3: with zero blocks broken, GetFortuneRequiredForCollection
does NOT return a numeric sentinel: the division by drops times zero
blocks yields positive infinity (for a positive target collection), which
Math.ceil passes through unchanged. This refutes the claim and exhibits
the divergence from the spec, which requires a special case returning a
sentinel such as 0. -/
theorem C3_inverse_fortune_zero_blocks_posInf (T : RateTables) (crop : Crop)
    (collection : ℚ) (h : 0 < collection) :
    GetFortuneRequiredForCollection T
      ⟨0, crop, collection, false, false⟩ = JSNum.posInf := by
  have h1 : (0 : ℚ) < collection * 100 := by linarith
  simp [GetFortuneRequiredForCollection, jsDiv, jsSubFin, jsCeil, mul_zero, h1, ne_of_gt h1]

/-- Witness for claim C3 at a concrete input: wheat, 100 target
collection, zero blocks broken. -/
theorem C3_inverse_fortune_zero_blocks_posInf_witness :
    (0 : ℚ) < 100 ∧
      GetFortuneRequiredForCollection sampleRateTables
        ⟨0, Crop.Wheat, 100, false, false⟩ = JSNum.posInf :=
  ⟨by norm_num,
    C3_inverse_fortune_zero_blocks_posInf sampleRateTables Crop.Wheat 100 (by norm_num)⟩

/-- Claim C4: constructing the fortune aggregator fails with the
unknown-tool error exactly when the item identifier is not a key of the
farming-tool table; for an identifier in the table it returns a built
tool and never that error. -/
theorem C4_unknown_tool_error (T : Tables) (jsCoerce : String → ℚ) (item : Item)
    (opts : Option PlayerOptions) :
    (buildTool T jsCoerce item opts = Except.error (unknownToolMessage item) ↔
      T.FARMING_TOOLS item.skyblockId = none)
    ∧ ((∃ ft, buildTool T jsCoerce item opts = Except.ok ft) ↔
      (T.FARMING_TOOLS item.skyblockId).isSome) := by
  constructor
  · cases h : T.FARMING_TOOLS item.skyblockId <;> simp [buildTool, h]
  · cases h : T.FARMING_TOOLS item.skyblockId <;> simp [buildTool, h]

/-- Claim C7: for the five replenishing crops with an explicit positive
fortune and non-negative blocks broken, CalculateExpectedDrops returns
round(blocks times drops-per-break times (fortune + 100)/100 minus
blocks). -/
theorem C7_expected_drops_replenish (T : RateTables) (crop : Crop) (f b : ℚ)
    (hcrop : crop = Crop.Carrot ∨ crop = Crop.CocoaBeans ∨ crop = Crop.NetherWart ∨
      crop = Crop.Potato ∨ crop = Crop.Seeds)
    (hf : 0 < f) (hb : 0 ≤ b) :
    CalculateExpectedDrops T ⟨some f, b, crop⟩ =
      jsRound (b * (CROP_INFO crop).drops * ((f + 100) / 100) - b) := by
  have hcond : ¬ (f ≤ 0 ∨ b < 0) := by
    push_neg
    exact ⟨hf, hb⟩
  rcases hcrop with h | h | h | h | h <;> subst h <;>
    simp only [CalculateExpectedDrops, Option.getD_some, GetCropInfo, CROP_INFO,
      if_neg hcond] <;>
    norm_num <;> congr 1 <;> ring_nf

/-- Witness for claim C7 at the spec example: potato, 100 blocks,
fortune 200, expected drops 800. -/
theorem C7_expected_drops_replenish_witness :
    (0 : ℚ) < 200 ∧ (0 : ℚ) ≤ 100 ∧
      CalculateExpectedDrops sampleRateTables ⟨some 200, 100, Crop.Potato⟩ = 800 :=
  ⟨by norm_num, by norm_num,
    (C7_expected_drops_replenish sampleRateTables Crop.Potato 200 100
      (Or.inr (Or.inr (Or.inr (Or.inl rfl)))) (by norm_num) (by norm_num)).trans
      (by norm_num [jsRound, CROP_INFO])⟩

theorem ddrops_npcCoins (T : RateTables) (o : DetailedDropsOptions) :
    (CalculateDetailedDrops T o).npcCoins = recSum (CalculateDetailedDrops T o).coinSources := by
  simp only [CalculateDetailedDrops]
  split
  · simp [recSum]
  · split
    · simp [recSum]
    · rfl

theorem base_npcCoins (T : RateTables) (o : DetailedAverageOptions) (c : Crop) :
    ((detailedAverageBase T o) c).npcCoins = recSum ((detailedAverageBase T o) c).coinSources := by
  by_cases h : c = Crop.Wheat
  · subst h
    simp only [detailedAverageBase, if_pos rfl]
  · simp only [detailedAverageBase, if_neg h]
    exact ddrops_npcCoins T (withCrop o c)

/-- Claim C8: in every result of CalculateDetailedDrops, and in every
per-crop entry of CalculateDetailedAverageDrops (wheat after seed
folding and mushroom after mooshroom folding included), npcCoins equals
exactly the sum of the coinSources values. -/
theorem C8_npcCoins_equals_coinSources_sum (T : RateTables)
    (o1 : DetailedDropsOptions) (o2 : DetailedAverageOptions) (c : Crop) :
    (CalculateDetailedDrops T o1).npcCoins =
      recSum (CalculateDetailedDrops T o1).coinSources
    ∧ (CalculateDetailedAverageDrops T o2 c).npcCoins =
      recSum (CalculateDetailedAverageDrops T o2 c).coinSources := by
  refine ⟨ddrops_npcCoins T o1, ?_⟩
  unfold CalculateDetailedAverageDrops
  split
  · simp only [mooshroomFold]
    by_cases h : c = Crop.Mushroom
    · subst h
      simp only [if_pos rfl]
      exact base_npcCoins T o2 Crop.Mushroom
    · simp only [if_neg h]
      exact base_npcCoins T o2 c
  · exact base_npcCoins T o2 c

theorem avg_wheat_eq_base (T : RateTables) (o : DetailedAverageOptions) :
    CalculateDetailedAverageDrops T o Crop.Wheat = detailedAverageBase T o Crop.Wheat := by
  unfold CalculateDetailedAverageDrops
  split
  · simp only [mooshroomFold]
    rw [if_neg (by decide : Crop.Wheat ≠ Crop.Mushroom)]
  · rfl

/-- Claim C9: after seed folding, the wheat entry of
CalculateDetailedAverageDrops has otherCollection Seeds equal to the
independently computed seeds-crop collection minus blocksBroken, a
coinSources Seeds entry of that quantity times the seeds NPC price, and
npcCoins recomputed as the sum of the extended coinSources. -/
theorem C9_seed_folding_into_wheat (T : RateTables) (o : DetailedAverageOptions) :
    getKey (CalculateDetailedAverageDrops T o Crop.Wheat).otherCollection "Seeds" =
      some ((CalculateDetailedDrops T (withCrop o Crop.Seeds)).collection - o.blocksBroken)
    ∧ getKey (CalculateDetailedAverageDrops T o Crop.Wheat).coinSources "Seeds" =
      some (((CalculateDetailedDrops T (withCrop o Crop.Seeds)).collection - o.blocksBroken) *
        (CROP_INFO Crop.Seeds).npc)
    ∧ (CalculateDetailedAverageDrops T o Crop.Wheat).npcCoins =
      recSum (CalculateDetailedAverageDrops T o Crop.Wheat).coinSources := by
  rw [avg_wheat_eq_base T o]
  simp only [detailedAverageBase, if_pos rfl]
  refine ⟨getKey_setKey_self _ _ _, ?_, trivial⟩
  by_cases hbo : o.bountiful
  · simp only [if_pos hbo]
    rw [getKey_setKey_ne _ _ _ _ (by decide : "Bountiful (Seeds)" ≠ "Seeds")]
    exact getKey_setKey_self _ _ _
  · simp only [if_neg hbo]
    exact getKey_setKey_self _ _ _

/-- Claim C10: with the mooshroom flag set, the mooshroom folding step
changes only the mushroom entry, and of that entry only the collection
(increased by the former Mushroom otherCollection value) and the
otherCollection map (Mushroom removed, Mooshroom added with the same
value); the coinSources, npcCoins and fortune fields of the mushroom
entry and every other crop entry are unchanged. -/
theorem C10_mooshroom_fold_frame (T : RateTables) (o : DetailedAverageOptions)
    (hm : o.mooshroom = true) :
    (∀ c, c ≠ Crop.Mushroom →
      CalculateDetailedAverageDrops T o c = detailedAverageBase T o c)
    ∧ (CalculateDetailedAverageDrops T o Crop.Mushroom).coinSources =
        (detailedAverageBase T o Crop.Mushroom).coinSources
    ∧ (CalculateDetailedAverageDrops T o Crop.Mushroom).npcCoins =
        (detailedAverageBase T o Crop.Mushroom).npcCoins
    ∧ (CalculateDetailedAverageDrops T o Crop.Mushroom).fortune =
        (detailedAverageBase T o Crop.Mushroom).fortune
    ∧ (CalculateDetailedAverageDrops T o Crop.Mushroom).collection =
        (detailedAverageBase T o Crop.Mushroom).collection +
          (getKey (detailedAverageBase T o Crop.Mushroom).otherCollection "Mushroom").getD 0
    ∧ getKey (CalculateDetailedAverageDrops T o Crop.Mushroom).otherCollection "Mooshroom" =
        some ((getKey (detailedAverageBase T o Crop.Mushroom).otherCollection "Mushroom").getD 0)
    ∧ getKey (CalculateDetailedAverageDrops T o Crop.Mushroom).otherCollection "Mushroom" = none
    ∧ (∀ k, k ≠ "Mushroom" → k ≠ "Mooshroom" →
        getKey (CalculateDetailedAverageDrops T o Crop.Mushroom).otherCollection k =
          getKey (detailedAverageBase T o Crop.Mushroom).otherCollection k) := by
  have hred : CalculateDetailedAverageDrops T o = mooshroomFold (detailedAverageBase T o) := by
    simp [CalculateDetailedAverageDrops, hm]
  rw [hred]
  refine ⟨?_, ?_, ?_, ?_, ?_, ?_, ?_, ?_⟩
  · intro c hc
    simp only [mooshroomFold]
    rw [if_neg hc]
  · simp only [mooshroomFold, if_pos rfl]
  · simp only [mooshroomFold, if_pos rfl]
  · simp only [mooshroomFold, if_pos rfl]
  · simp only [mooshroomFold, if_pos rfl]
  · simp only [mooshroomFold, if_pos rfl]
    rw [getKey_deleteKey_ne _ _ _ (by decide : "Mooshroom" ≠ "Mushroom")]
    exact getKey_setKey_self _ _ _
  · simp only [mooshroomFold, if_pos rfl]
    exact getKey_deleteKey_self _ _
  · intro k hk1 hk2
    simp only [mooshroomFold, if_pos rfl]
    rw [getKey_deleteKey_ne _ _ _ hk1]
    exact getKey_setKey_ne _ _ _ _ (Ne.symm hk2)

/-- Witness for claim C10 at a concrete input: the folded mushroom entry
has no Mushroom key left in its otherCollection. -/
theorem C10_mooshroom_fold_frame_witness :
    (DetailedAverageOptions.mk (some 100) 100 false true).mooshroom = true ∧
      getKey (CalculateDetailedAverageDrops sampleRateTables
        (DetailedAverageOptions.mk (some 100) 100 false true) Crop.Mushroom).otherCollection
        "Mushroom" = none :=
  ⟨rfl,
    (C10_mooshroom_fold_frame sampleRateTables
      (DetailedAverageOptions.mk (some 100) 100 false true) rfl).2.2.2.2.2.2.1⟩

/-- Claim C2: for the five replenishing crops, an explicit positive
fortune and non-negative blocks broken, CalculateDetailedDrops takes the
replenishment branch: otherCollection Replenish is minus
round(blocksBroken times breaks) and coinSources Collection is
round((base minus blocksBroken times breaks) times npc), with base equal
to blocksBroken times drops times (fortune + 100)/100. -/
theorem C2_detailed_drops_replenish_branch (T : RateTables) (o : DetailedDropsOptions)
    (f : ℚ)
    (hcrop : o.crop = Crop.Carrot ∨ o.crop = Crop.CocoaBeans ∨ o.crop = Crop.NetherWart ∨
      o.crop = Crop.Potato ∨ o.crop = Crop.Seeds)
    (hf : o.farmingFortune = some f) (hfpos : 0 < f) (hb : 0 ≤ o.blocksBroken) :
    getKey (CalculateDetailedDrops T o).otherCollection "Replenish" =
      some (-(jsRound (o.blocksBroken * ((CROP_INFO o.crop).breaks.getD 1))))
    ∧ getKey (CalculateDetailedDrops T o).coinSources "Collection" =
      some (jsRound
        ((o.blocksBroken * (CROP_INFO o.crop).drops * ((f + 100) / 100) -
          o.blocksBroken * ((CROP_INFO o.crop).breaks.getD 1)) * (CROP_INFO o.crop).npc)) := by
  obtain ⟨ff, b, bo, mo, crop⟩ := o
  simp only at hf hb hcrop
  subst hf
  have hcond : ¬ ((f ≤ 0 ∨ b < 0)) := by
    push_neg
    exact ⟨hfpos, hb⟩
  have hne : ¬ (f = 0) := ne_of_gt hfpos
  rcases hcrop with h | h | h | h | h <;> subst h <;>
    simp only [CalculateDetailedDrops, Option.getD_some, if_neg hcond, jsFalsyNumOpt,
      GetCropInfo, CROP_INFO, beq_iff_eq, hne, and_false, if_false, ite_false] <;>
    norm_num <;>
    refine ⟨getKey_setKey_self _ _ _, ?_⟩ <;>
    rw [getKey_setKey_self] <;>
    congr 1 <;>
    ring_nf

theorem mem_if_singleton {b : Prop} [Decidable b] {k : String} {v : ℚ} {p : String × ℚ}
    (hp : p ∈ (if b then [(k, v)] else [])) : p = (k, v) := by
  split at hp
  · simpa using hp
  · cases hp

theorem lastWrite_if_singleton_ne {b : Prop} [Decidable b] (k key : String) (v : ℚ)
    (h : k ≠ key) : lastWrite (if b then [(k, v)] else []) key = none := by
  split <;> simp [lastWrite, orOpt, h]

theorem lastWrite_if_singleton_self {b : Prop} [Decidable b] (key : String) (v : ℚ) :
    lastWrite (if b then [(key, v)] else []) key = if b then some v else none := by
  split <;> simp [lastWrite, orOpt]

theorem mem_enchantContrib (T : Tables) (crop : Crop) (q : String × Int) (p : String × ℚ)
    (hp : p ∈ enchantContrib T crop q) :
    p.1 = "Turbo" ∨ ∃ fe, (∃ e, T.FARMING_ENCHANTS e = some fe) ∧ p.1 = fe.name := by
  unfold enchantContrib at hp
  split at hp
  · cases hp
  · split at hp
    · split at hp
      · left
        simp only [List.mem_singleton] at hp
        rw [hp]
      · cases hp
    · split at hp
      · cases hp
      · rename_i fe hfe
        dsimp only at hp
        split at hp
        · right
          simp only [List.mem_singleton] at hp
          refine ⟨fe, ⟨q.1, hfe⟩, ?_⟩
          rw [hp]
        · cases hp

theorem mem_enchantContribs (T : Tables) (crop : Crop) (ench : List (String × Int))
    (p : String × ℚ) (hp : p ∈ enchantContribs T crop ench) :
    p.1 = "Turbo" ∨ ∃ fe, (∃ e, T.FARMING_ENCHANTS e = some fe) ∧ p.1 = fe.name := by
  simp only [enchantContribs, List.mem_flatMap] at hp
  obtain ⟨q, _, hq⟩ := hp
  exact mem_enchantContrib T crop q p hq

theorem mem_dedicationContribs (T : Tables) (opts : Option PlayerOptions) (crop : Crop)
    (ench : List (String × Int)) (p : String × ℚ)
    (hp : p ∈ dedicationContribs T opts crop ench) :
    ∃ fe, T.FARMING_ENCHANTS "dedication" = some fe ∧ p.1 = fe.name := by
  simp only [dedicationContribs] at hp
  split at hp
  · cases hp
  · split at hp
    · rename_i level fe hlk hfe
      split at hp
      · cases hp
      · split at hp
        · simp only [List.mem_singleton] at hp
          refine ⟨fe, hfe, ?_⟩
          rw [hp]
        · cases hp
    · cases hp

theorem orOpt_none_left (b : Option ℚ) : orOpt none b = b := rfl

theorem mem_fortunePrefix (T : Tables) (c : ToolCtx) (p : String × ℚ)
    (hp : p ∈ fortunePrefix T c) :
    p.1 = "Tool Bonus" ∨
    p = ("Tool Stats", rarityStatsValue c.tool c.recombobulated c.rarity) ∨
    p.1 = (c.reforge.map Reforge.name).getD "Reforge" ∨
    p.1 = "Farming for Dummies" ∨
    p.1 = "Tool Ability" := by
  simp only [fortunePrefix, List.mem_append] at hp
  rcases hp with ((((h | h) | h) | h) | h)
  · left
    rw [mem_if_singleton h]
  · right; left
    exact mem_if_singleton h
  · right; right; left
    rw [mem_if_singleton h]
  · right; right; right; left
    rw [mem_if_singleton h]
  · right; right; right; right
    split at h
    · rw [mem_if_singleton h]
    · cases h

theorem lastWrite_toolStats (T : Tables) (opts : Option PlayerOptions) (c : ToolCtx)
    (hrf : (c.reforge.map Reforge.name).getD "Reforge" ≠ "Tool Stats")
    (hfe : ∀ e fe, T.FARMING_ENCHANTS e = some fe → fe.name ≠ "Tool Stats") :
    getKey (sumFortune T opts c).2 "Tool Stats" =
      if 0 < rarityStatsValue c.tool c.recombobulated c.rarity
      then some (rarityStatsValue c.tool c.recombobulated c.rarity) else none := by
  have hE : lastWrite (enchantContribs T c.crop c.enchantments) "Tool Stats" = none := by
    refine lastWrite_of_forall_ne _ _ ?_
    intro p hp
    rcases mem_enchantContribs T c.crop c.enchantments p hp with h | ⟨fe, ⟨e, he⟩, hn⟩
    · rw [h]
      decide
    · rw [hn]
      exact hfe e fe he
  have hD : lastWrite (dedicationContribs T opts c.crop c.enchantments) "Tool Stats" = none := by
    refine lastWrite_of_forall_ne _ _ ?_
    intro p hp
    obtain ⟨fe, he, hn⟩ := mem_dedicationContribs T opts c.crop c.enchantments p hp
    rw [hn]
    exact hfe "dedication" fe he
  have hP : lastWrite (fortunePrefix T c) "Tool Stats" =
      if 0 < rarityStatsValue c.tool c.recombobulated c.rarity
      then some (rarityStatsValue c.tool c.recombobulated c.rarity) else none := by
    simp only [fortunePrefix]
    rw [lastWrite_append, lastWrite_append, lastWrite_append, lastWrite_append]
    rw [lastWrite_if_singleton_ne _ _ _ (by decide : "Tool Bonus" ≠ "Tool Stats")]
    rw [lastWrite_if_singleton_self]
    rw [lastWrite_if_singleton_ne _ _ _ hrf]
    rw [lastWrite_if_singleton_ne _ _ _ (by decide : "Farming for Dummies" ≠ "Tool Stats")]
    have h5 : lastWrite
        (if c.tool.toolType = FarmingToolType.MathematicalHoe then
          (if 0 < abilityFortune T c.lore then [("Tool Ability", abilityFortune T c.lore)] else [])
         else []) "Tool Stats" = none := by
      split
      · exact lastWrite_if_singleton_ne _ _ _ (by decide)
      · rfl
    rw [h5]
    simp only [orOpt_none_left, orOpt_none_right]
  simp only [sumFortune]
  rw [getKey_applyContribs]
  simp only [fortuneContribs]
  rw [lastWrite_append, lastWrite_append, hE, hD, hP]
  simp only [orOpt_none_left, orOpt_none_right]

theorem rarityStatsValue_recomb (tool : FarmingToolInfo) (rA rB : Rarity)
    (h : PreviousRarity rA = rB) :
    rarityStatsValue tool true (some rA) = rarityStatsValue tool false (some rB) := by
  simp [rarityStatsValue, h]

/-- Claim C1 (amended): the fortune total equals the sum of the breakdown
values whenever the evaluation writes each breakdown label at most once.
In general the total is the sum of every contribution while the breakdown
keeps only the last write per label, so a duplicated label (for example a
dedication enchantment contributing both a flat and a milestone-scaled
bonus under one display name, or two turbo enchantments both matching the
tool crop) makes the total strictly exceed the breakdown sum. -/
theorem C1_sum_law_nodup_labels (T : Tables) (opts : Option PlayerOptions) (c : ToolCtx)
    (h : ((fortuneContribs T opts c).map Prod.fst).Nodup) :
    (sumFortune T opts c).1 = recSum (sumFortune T opts c).2 := by
  have h2 := applyContribs_of_nodup (fortuneContribs T opts c) h
  simp only [sumFortune, h2, recSum]

/-- An enchantment definition carrying both a flat per-level fortune row
and a milestone-multiplied row, as the spec allows for dedication. -/
def dedicationEnchant : FarmingEnchant :=
  ⟨"Dedication",
    some (fun lv => if lv = 1 then some (fun _ => some 1) else none),
    some (fun lv => if lv = 1 then some (fun _ => some 1) else none)⟩

/-- Concrete aggregator tables for the duplicated-label scenario: one
tool and a dedication enchantment with both bonus forms. -/
def dedicationTables : Tables :=
  ⟨fun id => if id = "TOOL" then some ⟨Crop.Wheat, FarmingToolType.Other, none, none⟩ else none,
    fun _ => none,
    fun e => if e = "dedication" then some dedicationEnchant else none,
    fun _ => none, 0, fun _ => Rarity.Common, fun _ => none⟩

/-- A tool item carrying dedication at level 1. -/
def dedicationItem : Item :=
  ⟨"TOOL", "Tool", none, some [("dedication", 1)], none⟩

/-- Player context with a milestone count of 2 for wheat. -/
def dedicationOpts : PlayerOptions :=
  ⟨some (fun c => if c = Crop.Wheat then some 2 else none)⟩

/-- Claim C1 counterexample: an item accepted by the aggregator whose
dedication enchantment contributes a flat bonus of 1 (step 6) and a
milestone-scaled bonus of 2 (step 7) under the same label. The fortune
total is 3 but the breakdown holds only the last write, so its values
sum to 2: the sum law of the claim fails. -/
theorem C1_sum_law_counterexample :
    (buildTool dedicationTables (fun _ => 0) dedicationItem (some dedicationOpts)).toOption.map
      (fun ft => (ft.fortune, recSum ft.fortuneBreakdown)) = some ((3 : ℚ), (2 : ℚ))
    ∧ (3 : ℚ) ≠ 2 := by
  constructor
  · norm_num [buildTool, dedicationTables, dedicationItem, dedicationOpts, sumFortune,
      fortuneContribs, fortunePrefix, enchantContribs, enchantContrib, dedicationContribs,
      dedicationEnchant, rarityStatsValue, abilityFortune, applyContribs, setKey, recSum,
      coerceAttr, getCounter, getCultivating, List.lookup, Except.toOption]
  · norm_num

/-- Aggregator tables with no reforges and no enchantments. -/
def plainTables : Tables :=
  ⟨fun _ => none, fun _ => none, fun _ => none, fun _ => none, 0,
    fun _ => Rarity.Common, fun _ => none⟩

/-- A tool context whose only fortune source is a base tool bonus of 5. -/
def plainCtx : ToolCtx :=
  ⟨⟨Crop.Wheat, FarmingToolType.Other, some (fun _ => some 5), none⟩, Crop.Wheat,
    none, none, none, 0, false, none, []⟩

/-- Witness for the amended claim C1 at a concrete input with distinct
labels. -/
theorem C1_sum_law_nodup_labels_witness :
    ((fortuneContribs plainTables none plainCtx).map Prod.fst).Nodup ∧
      (sumFortune plainTables none plainCtx).1 = recSum (sumFortune plainTables none plainCtx).2 :=
  ⟨by
    norm_num [fortuneContribs, fortunePrefix, plainTables, plainCtx, enchantContribs,
      dedicationContribs, rarityStatsValue, abilityFortune],
    C1_sum_law_nodup_labels plainTables none plainCtx (by
      norm_num [fortuneContribs, fortunePrefix, plainTables, plainCtx, enchantContribs,
        dedicationContribs, rarityStatsValue, abilityFortune])⟩

/-- Claim C6: for an item whose single enchantment is a turbo-family
enchantment at positive level, the aggregator adds a Turbo breakdown
entry worth the fixed per-level constant times the level exactly when
the enchantment crop equals the tool crop (and the total grows by the
same amount); when the crops differ the whole result is the same as with
no enchantments at all: zero contribution and no breakdown entry. -/
theorem C6_turbo_crop_match (T : Tables) (opts : Option PlayerOptions) (c : ToolCtx)
    (e : String) (l : Int) (c2 : Crop)
    (hench : c.enchantments = [(e, l)])
    (hturbo : T.TURBO_ENCHANTS e = some c2)
    (hl : 0 < l)
    (hded : e ≠ "dedication") :
    (c2 = c.crop →
      getKey (sumFortune T opts c).2 "Turbo" = some (T.TURBO_ENCHANT_FORTUNE * (l : ℚ))
      ∧ (sumFortune T opts c).1 =
        (sumFortune T opts { c with enchantments := [] }).1 + T.TURBO_ENCHANT_FORTUNE * (l : ℚ))
    ∧ (c2 ≠ c.crop → sumFortune T opts c = sumFortune T opts { c with enchantments := [] }) := by
  have hlz : ¬ (l = 0) := by omega
  have hbe : ("dedication" == e) = false := by
    simp [Ne.symm hded]
  have hca : fortuneContribs T opts c =
      fortunePrefix T c ++ enchantContribs T c.crop [(e, l)] ++
        dedicationContribs T opts c.crop [(e, l)] := by
    simp only [fortuneContribs, hench]
  have hD2 : dedicationContribs T opts c.crop [(e, l)] = [] := by
    simp [dedicationContribs, List.lookup, hbe]
  have hPP : fortunePrefix T { c with enchantments := [] } = fortunePrefix T c := rfl
  have hcb : fortuneContribs T opts { c with enchantments := [] } = fortunePrefix T c := by
    simp only [fortuneContribs]
    rw [hPP]
    have hE0 : enchantContribs T c.crop [] = [] := rfl
    have hD0 : dedicationContribs T opts c.crop [] = [] := by
      simp [dedicationContribs, List.lookup]
    simp only [hE0, hD0, List.append_nil]
  constructor
  · intro hcc
    subst hcc
    have hE2 : enchantContribs T c.crop [(e, l)] =
        [("Turbo", T.TURBO_ENCHANT_FORTUNE * (l : ℚ))] := by
      simp [enchantContribs, enchantContrib, hturbo, hlz]
    constructor
    · simp only [sumFortune]
      rw [getKey_applyContribs, hca, hE2, hD2]
      rw [lastWrite_append, lastWrite_append]
      simp [lastWrite, orOpt]
    · simp only [sumFortune]
      rw [hca, hE2, hD2, hcb]
      simp [List.map_append]
  · intro hne
    have hE3 : enchantContribs T c.crop [(e, l)] = [] := by
      simp [enchantContribs, enchantContrib, hturbo, hlz, hne]
    have h1 : fortuneContribs T opts c = fortunePrefix T c := by
      rw [hca, hE3, hD2]
      simp
    simp only [sumFortune, h1, hcb]

/-- Aggregator tables whose only content is a turbo enchantment for
wheat with a per-level fortune constant of 5. -/
def turboTables : Tables :=
  ⟨fun _ => none, fun _ => none, fun _ => none,
    fun id => if id = "turbo_wheat" then some Crop.Wheat else none, 5,
    fun _ => Rarity.Common, fun _ => none⟩

/-- A wheat-tool context whose single enchantment is the wheat turbo
enchantment at level 2. -/
def turboCtx : ToolCtx :=
  ⟨⟨Crop.Wheat, FarmingToolType.Other, none, none⟩, Crop.Wheat, none, none, none, 0, false,
    none, [("turbo_wheat", 2)]⟩

/-- Witness for claim C6 at a concrete input: the matching turbo
enchantment produces the Turbo breakdown entry. -/
theorem C6_turbo_crop_match_witness :
    turboCtx.enchantments = [("turbo_wheat", 2)] ∧
    turboTables.TURBO_ENCHANTS "turbo_wheat" = some Crop.Wheat ∧
    (0 : ℤ) < 2 ∧
    "turbo_wheat" ≠ "dedication" ∧
    getKey (sumFortune turboTables none turboCtx).2 "Turbo" =
      some (turboTables.TURBO_ENCHANT_FORTUNE * ((2 : ℤ) : ℚ)) :=
  ⟨rfl, by simp [turboTables], by decide, by decide,
    ((C6_turbo_crop_match turboTables none turboCtx "turbo_wheat" 2 Crop.Wheat rfl
      (by simp [turboTables]) (by decide) (by decide)).1 rfl).1⟩

theorem getKey_sumFortune_toolStats_eq (T : Tables) (opts : Option PlayerOptions)
    (tool : FarmingToolInfo) (crop : Crop) (raA raB : Option Rarity)
    (rf : Option Reforge) (rsA rsB : Option ReforgeTier) (ffd : ℚ) (recA recB : Bool)
    (loA loB : Option (List String)) (en : List (String × Int))
    (hlab : (rf.map Reforge.name).getD "Reforge" ≠ "Tool Stats")
    (hfe : ∀ e fe, T.FARMING_ENCHANTS e = some fe → fe.name ≠ "Tool Stats")
    (hval : rarityStatsValue tool recA raA = rarityStatsValue tool recB raB) :
    getKey (sumFortune T opts ⟨tool, crop, raA, rf, rsA, ffd, recA, loA, en⟩).2 "Tool Stats" =
    getKey (sumFortune T opts ⟨tool, crop, raB, rf, rsB, ffd, recB, loB, en⟩).2 "Tool Stats" := by
  rw [lastWrite_toolStats T opts ⟨tool, crop, raA, rf, rsA, ffd, recA, loA, en⟩ hlab hfe,
    lastWrite_toolStats T opts ⟨tool, crop, raB, rf, rsB, ffd, recB, loB, en⟩ hlab hfe]
  simp only [hval]

/-- Claim C5: two item snapshots identical except that the first carries
the recombobulated attribute (rarity_upgrades equal to the literal
string 1) and lore stating a rarity one tier higher, produce the same
Tool Stats breakdown entry: the recombobulated item looks its rarity
stats up one tier below its stated rarity. (The reforge display name and
enchantment display names are assumed not to collide with the fixed
Tool Stats label, as holds for the real tables.) -/
theorem C5_recombobulated_tool_stats (T : Tables) (jsCoerce : String → ℚ)
    (opts : Option PlayerOptions) (skyblockId nameA nameB : String)
    (loreA loreB : List String) (ench : Option (List (String × Int)))
    (attrsA attrsB : ItemAttributes)
    (hprev : PreviousRarity (T.rarityFromLore loreA) = T.rarityFromLore loreB)
    (hrecA : attrsA.rarity_upgrades = some "1")
    (hrecB : attrsB.rarity_upgrades ≠ some "1")
    (hmod : attrsA.modifier = attrsB.modifier)
    (hffd : attrsA.farming_for_dummies_count = attrsB.farming_for_dummies_count)
    (hrf : ∀ rf, T.REFORGES (attrsA.modifier.getD "") = some rf → rf.name ≠ "Tool Stats")
    (hfe : ∀ e fe, T.FARMING_ENCHANTS e = some fe → fe.name ≠ "Tool Stats") :
    (buildTool T jsCoerce ⟨skyblockId, nameA, some loreA, ench, some attrsA⟩ opts).toOption.map
      (fun ft => getKey ft.fortuneBreakdown "Tool Stats") =
    (buildTool T jsCoerce ⟨skyblockId, nameB, some loreB, ench, some attrsB⟩ opts).toOption.map
      (fun ft => getKey ft.fortuneBreakdown "Tool Stats") := by
  have hrecBf : (attrsB.rarity_upgrades == some "1") = false := by
    simp [hrecB]
  rcases htool : T.FARMING_TOOLS skyblockId with _ | tool
  · simp [buildTool, htool, Except.toOption]
  · simp only [buildTool, htool, Except.toOption, Option.map_some', Option.some_bind',
      hrecA, hrecBf, hmod, hffd, beq_self_eq_true, Option.some.injEq]
    exact getKey_sumFortune_toolStats_eq T opts tool tool.crop _ _ _ _ _ _ _ _ _ _ _
      (by
        rcases h2 : T.REFORGES (attrsB.modifier.getD "") with _ | rf
        · simp
        · simpa using hrf rf (hmod ▸ h2))
      hfe
      (rarityStatsValue_recomb tool _ _ hprev)

/-- Aggregator tables with one wheat tool whose rarity stats row grants
10 fortune at Rare, and a lore parser mapping one fixed lore to Epic and
everything else to Rare. -/
def rarityTables : Tables :=
  ⟨fun id =>
      if id = "TOOL" then
        some ⟨Crop.Wheat, FarmingToolType.Other, none,
          some (fun r => if r = Rarity.Rare then some (fun _ => some 10) else none)⟩
      else none,
    fun _ => none, fun _ => none, fun _ => none, 0,
    fun lore => if lore = ["Epic lore"] then Rarity.Epic else Rarity.Rare,
    fun _ => none⟩

/-- Attributes of a recombobulated item. -/
def attrsRecomb : ItemAttributes := ⟨none, none, none, none, some "1"⟩

/-- Attributes of a plain item. -/
def attrsPlain : ItemAttributes := ⟨none, none, none, none, none⟩

/-- Witness for claim C5 at a concrete pair of items: the recombobulated
Epic item and the plain Rare item have the same Tool Stats entry. -/
theorem C5_recombobulated_tool_stats_witness :
    PreviousRarity (rarityTables.rarityFromLore ["Epic lore"]) =
      rarityTables.rarityFromLore ["Rare lore"] ∧
    attrsRecomb.rarity_upgrades = some "1" ∧
    attrsPlain.rarity_upgrades ≠ some "1" ∧
    (buildTool rarityTables (fun _ => 0)
        ⟨"TOOL", "A", some ["Epic lore"], none, some attrsRecomb⟩ none).toOption.map
      (fun ft => getKey ft.fortuneBreakdown "Tool Stats") =
    (buildTool rarityTables (fun _ => 0)
        ⟨"TOOL", "B", some ["Rare lore"], none, some attrsPlain⟩ none).toOption.map
      (fun ft => getKey ft.fortuneBreakdown "Tool Stats") :=
  ⟨by decide, rfl, by decide,
    C5_recombobulated_tool_stats rarityTables (fun _ => 0) none "TOOL" "A" "B"
      ["Epic lore"] ["Rare lore"] none attrsRecomb attrsPlain
      (by decide) rfl (by decide) rfl rfl
      (fun rf h => by simp [rarityTables] at h)
      (fun e fe h => by simp [rarityTables] at h)⟩

/-- Witness for claim C2 at a concrete input: potato, 100 blocks,
fortune 200; the Replenish adjustment is -100 and the Collection coin
entry is (900 - 100) * 3 = 2400. -/
theorem C2_detailed_drops_replenish_branch_witness :
    (0 : ℚ) < 200 ∧ (0 : ℚ) ≤ 100 ∧
    getKey (CalculateDetailedDrops sampleRateTables
      (DetailedDropsOptions.mk (some 200) 100 false false Crop.Potato)).otherCollection
      "Replenish" = some (-100)
    ∧ getKey (CalculateDetailedDrops sampleRateTables
      (DetailedDropsOptions.mk (some 200) 100 false false Crop.Potato)).coinSources
      "Collection" = some 2400 := by
  have h := C2_detailed_drops_replenish_branch sampleRateTables
    (DetailedDropsOptions.mk (some 200) 100 false false Crop.Potato) 200
    (Or.inr (Or.inr (Or.inr (Or.inl rfl)))) rfl (by norm_num) (by norm_num)
  refine ⟨by norm_num, by norm_num, ?_, ?_⟩
  · exact h.1.trans (by norm_num [jsRound, CROP_INFO])
  · exact h.2.trans (by norm_num [jsRound, CROP_INFO])
